import Mathlib

/-
Verification of the editorial content pipeline (status-driven workflow state
machine) against its natural-language specification.

The pipeline moves ContentItems through statuses such as "Ready for Research",
"Research In Progress", "Ready for Draft", "Draft In Progress" and
"Ready for Review", calling external research/draft providers in between.
We embed the per-item processing functions of the repository's variants
(the Notion-backed CLI commands, the git/file-frontmatter commands, the
Devin GitHub Actions, and the Copilot GitHub Action helpers) as pure Lean
functions.  External calls (store writes, provider requests) are made
explicit through environment records whose fields give each call's outcome:
`none` means the call succeeded, `some m` means it threw an error whose
message is `m`.  Each run returns the final content store together with a
trace of the externally visible events (persisted writes, item creations,
provider invocations) in the order they happened.
-/

namespace Editorial

/-- Result of a research-provider call: prose plus source citations
(the duck-typed `{content, citations}` response shape). -/
structure Research where
  content : String
  citations : List String
deriving Repr, DecidableEq

/-- A ContentItem as stored in the content store: title, workflow status,
accumulated body text, an optional relation to a companion item (the Notion
"Blog Posts" relation / the git `blog_post_filePath` field), an optional
back-reference to the research brief (`research_brief_filePath`), and the
optional error message recorded when a run fails. -/
structure Item where
  title : String := ""
  status : String := ""
  body : String := ""
  relation : Option String := none
  briefRef : Option String := none
  errorMsg : Option String := none
deriving Repr, DecidableEq

/-- The content store: items keyed by id (a database page id or a file path). -/
abbrev Store := List (String × Item)

/-- Read an item from the store. -/
def getItem : Store → String → Option Item
  | [], _ => none
  | (k, it) :: rest, id => if k = id then some it else getItem rest id

/-- Persist a field update on an existing item (a page-properties update or a
front-matter merge commit); a missing id leaves the store unchanged. -/
def updateItem : Store → String → (Item → Item) → Store
  | [], _, _ => []
  | (k, it) :: rest, id, f =>
    if k = id then (k, f it) :: rest else (k, it) :: updateItem rest id f

/-- Persist a newly created item under a fresh id. -/
def createItem (s : Store) (id : String) (it : Item) : Store :=
  (id, it) :: s

/-- Externally visible events of a run, in execution order.  A `providerCall`
records the persisted status of the processed item at the moment the external
provider is invoked. -/
inductive Ev where
  | statusWrite (id status : String)
  | bodyWrite (id body : String)
  | errorWrite (id msg : String)
  | create (id : String) (item : Item)
  | providerCall (title : String) (persisted : Option String)
deriving Repr, DecidableEq

/-- An event is a write to the content store (anything but a provider call). -/
def Ev.isWrite : Ev → Bool
  | .providerCall _ _ => false
  | _ => true

/-- Scanner for the crash-safety discipline: every provider call in the trace
must come after a persisted write of the in-progress status on the processed
item, and must observe that in-progress status as the item's persisted status. -/
def providerGuardedFrom (id ip : String) (seen : Bool) : List Ev → Prop
  | [] => True
  | Ev.providerCall _ st :: rest =>
      seen = true ∧ st = some ip ∧ providerGuardedFrom id ip seen rest
  | Ev.statusWrite i s :: rest =>
      providerGuardedFrom id ip (seen || (i == id && s == ip)) rest
  | _ :: rest => providerGuardedFrom id ip seen rest

/-- A trace respects the write-before-provider-call discipline for item `id`
with in-progress status `ip`. -/
def providerGuarded (id ip : String) (tr : List Ev) : Prop :=
  providerGuardedFrom id ip false tr

/-- The numbered "Sources" lines, 1-indexed: one line per citation in
provider order. -/
def sourcesLines : Nat → List String → String
  | _, [] => ""
  | n, c :: rest => s!"{n}. {c}\n" ++ sourcesLines (n + 1) rest

/-- Citation appending, from `ResearchCommand.processTopic`
(src/src/commands/research.js lines 62-70; identically in
GitResearchCommand.processTopic lines 163-170): when the citation list is
non-empty, append a Sources header and one numbered line per citation. -/
def enhanceContent (content : String) (citations : List String) : String :=
  if citations.length ≠ 0 then
    (citations.enum).foldl (fun acc p => acc ++ s!"{p.1 + 1}. {p.2}\n")
      (content ++ "\n\n## Sources\n")
  else content

theorem getItem_updateItem_self (s : Store) (id : String) (f : Item → Item) :
    getItem (updateItem s id f) id = (getItem s id).map f := by
  induction s with
  | nil => rfl
  | cons p rest ih =>
    obtain ⟨k, it⟩ := p
    by_cases h : k = id <;> simp [getItem, updateItem, h, ih]

theorem getItem_updateItem_ne (s : Store) (id id' : String) (f : Item → Item)
    (h : id' ≠ id) : getItem (updateItem s id f) id' = getItem s id' := by
  induction s with
  | nil => rfl
  | cons p rest ih =>
    obtain ⟨k, it⟩ := p
    by_cases hk : k = id
    · subst hk
      simp [getItem, updateItem, Ne.symm h]
    · by_cases hk' : k = id'
      · subst hk'
        simp [getItem, updateItem, h]
      · simp [getItem, updateItem, hk, hk', ih]

theorem getItem_createItem_self (s : Store) (id : String) (it : Item) :
    getItem (createItem s id it) id = some it := by
  simp [getItem, createItem]

theorem getItem_createItem_ne (s : Store) (id id' : String) (it : Item)
    (h : id' ≠ id) : getItem (createItem s id it) id' = getItem s id' := by
  simp [getItem, createItem, Ne.symm h]

theorem foldl_enumFrom_sources (l : List String) : ∀ (k : Nat) (acc : String),
    (List.enumFrom k l).foldl (fun acc p => acc ++ s!"{p.1 + 1}. {p.2}\n") acc
      = acc ++ sourcesLines (k + 1) l := by
  induction l with
  | nil => intro k acc; simp [List.enumFrom, sourcesLines]
  | cons c rest ih =>
    intro k acc
    have h1 : List.enumFrom k (c :: rest) = (k, c) :: List.enumFrom (k + 1) rest := rfl
    rw [h1, List.foldl_cons, ih (k + 1), sourcesLines, String.append_assoc]

theorem enhanceContent_eq_sources (c : String) (l : List String) (h : l ≠ []) :
    enhanceContent c l = c ++ "\n\n## Sources\n" ++ sourcesLines 1 l := by
  have hlen : l.length ≠ 0 := by simpa using h
  unfold enhanceContent
  rw [if_pos hlen]
  exact foldl_enumFrom_sources l 0 (c ++ "\n\n## Sources\n")

namespace ResearchCommand

/-- Outcomes of the external calls made by one run of
`ResearchCommand.processTopic` (src/src/commands/research.js), in call order:
the in-progress status update, the Perplexity research call, and the three
calls inside `NotionClient.createResearchBrief` (page creation, block append,
final status update), plus the error-recording update used in the catch
block.  `none` means the call succeeds; `some m` means it throws message `m`. -/
structure Env where
  updateInProgress : Option String
  research : Except String Research
  createPage : Option String
  newBriefId : String
  appendBlocks : Option String
  updateReadyForDraft : Option String
  recordError : Option String

/-- All external calls of the main path succeed. -/
def Env.allOk (env : Env) : Prop :=
  env.updateInProgress = none ∧ (∃ r, env.research = .ok r) ∧
    env.createPage = none ∧ env.appendBlocks = none ∧
    env.updateReadyForDraft = none

/-- NotionClient.updateBlogPostError (src/src/shared/notion/client.js lines
284-309): one page update setting the Error text and status to "Error";
its own failure is logged and swallowed, persisting nothing. -/
def updateBlogPostError (store : Store) (tr : List Ev) (id msg : String)
    (outcome : Option String) : Store × List Ev :=
  match outcome with
  | some _ => (store, tr)
  | none =>
      (updateItem store id (fun it => { it with status := "Error", errorMsg := some msg }),
       tr ++ [Ev.errorWrite id msg])

/-- ResearchCommand.processTopic (src/src/commands/research.js lines 34-92):
persist status "Research In Progress", stop if dry-run, call the research
provider, enhance the content with citations, then
NotionClient.createResearchBrief (client.js lines 49-99): create the brief
page (status "Ready to Start", related to the topic), append the content
blocks, and set the topic's status to "Ready for Draft".  Any failure is
caught and recorded via updateBlogPostError with the fallback message for a
falsy error message; nothing is re-thrown.  Block-append batching and rate
delays are abstracted into a single append outcome. -/
def processTopic (store : Store) (topicId topicTitle : String) (dryRun : Bool)
    (env : Env) : Store × List Ev :=
  let fail := fun (store' : Store) (tr : List Ev) (m : String) =>
    let errorMessage := if m = "" then "Unknown error occurred during research" else m
    updateBlogPostError store' tr topicId errorMessage env.recordError
  match env.updateInProgress with
  | some m => fail store [] m
  | none =>
    let store1 := updateItem store topicId (fun it => { it with status := "Research In Progress" })
    let tr1 := [Ev.statusWrite topicId "Research In Progress"]
    if dryRun then (store1, tr1)
    else
      let tr2 := tr1 ++ [Ev.providerCall topicTitle ((getItem store1 topicId).map Item.status)]
      match env.research with
      | .error m => fail store1 tr2 m
      | .ok research =>
        let enhancedContent := enhanceContent research.content research.citations
        match env.createPage with
        | some m => fail store1 tr2 m
        | none =>
          let brief : Item :=
            { title := topicTitle, status := "Ready to Start", relation := some topicId }
          let store2 := createItem store1 env.newBriefId brief
          let tr3 := tr2 ++ [Ev.create env.newBriefId brief]
          match env.appendBlocks with
          | some m => fail store2 tr3 m
          | none =>
            let store3 := updateItem store2 env.newBriefId
              (fun it => { it with body := enhancedContent })
            let tr4 := tr3 ++ [Ev.bodyWrite env.newBriefId enhancedContent]
            match env.updateReadyForDraft with
            | some m => fail store3 tr4 m
            | none =>
              (updateItem store3 topicId (fun it => { it with status := "Ready for Draft" }),
               tr4 ++ [Ev.statusWrite topicId "Ready for Draft"])

/-- The per-topic body of ResearchCommand.execute (research.js lines 115-125):
a topic whose extracted title is absent or the empty string is skipped with a
log line before any processing. -/
def topicStep (store : Store) (topicId : String) (topicTitle : Option String)
    (dryRun : Bool) (env : Env) : Store × List Ev :=
  match topicTitle with
  | none => (store, [])
  | some t => if t = "" then (store, []) else processTopic store topicId t dryRun env

end ResearchCommand

/-- Store a file's parsed item under a path, replacing an existing entry or
appending a new one. -/
def setItem : Store → String → Item → Store
  | [], id, it => [(id, it)]
  | (k, o) :: rest, id, it =>
    if k = id then (k, it) :: rest else (k, o) :: setItem rest id it

theorem getItem_setItem_self (s : Store) (id : String) (it : Item) :
    getItem (setItem s id it) id = some it := by
  induction s with
  | nil => simp [getItem, setItem]
  | cons p rest ih =>
    obtain ⟨k, o⟩ := p
    by_cases h : k = id <;> simp [getItem, setItem, h, ih]

theorem getItem_setItem_ne (s : Store) (id id' : String) (it : Item)
    (h : id' ≠ id) : getItem (setItem s id it) id' = getItem s id' := by
  induction s with
  | nil => simp [getItem, setItem, Ne.symm h]
  | cons p rest ih =>
    obtain ⟨k, o⟩ := p
    by_cases hk : k = id
    · subst hk
      simp [getItem, setItem, Ne.symm h]
    · by_cases hk' : k = id'
      · subst hk'
        simp [getItem, setItem, h]
      · simp [getItem, setItem, hk, hk', ih]

namespace GitHubFileClient

/-- GitHubFileClient.writeFile (src/src/shared/github/getFileSha.js lines
49-75): fetch the file's sha when none is supplied (absent files proceed
without one) and call createOrUpdateFileContents, which replaces the file or
creates it when missing — a single commit.  `outcome` is the backing API
call's result: `some m` throws `m` and persists nothing. -/
def writeFile (store : Store) (filePath : String) (item : Item)
    (evs : List Ev) (outcome : Option String) : Except String (Store × List Ev) :=
  match outcome with
  | some m => .error m
  | none => .ok (setItem store filePath item, evs)

/-- GitHubFileClient.createFile (getFileSha.js lines 77-93): call
createOrUpdateFileContents with no sha, which the backing API accepts only
for a path that does not exist yet (updating an existing file requires its
sha), so a successful call is a genuine creation; failures are re-thrown. -/
def createFile (store : Store) (filePath : String) (item : Item)
    (evs : List Ev) (outcome : Option String) : Except String (Store × List Ev) :=
  match outcome with
  | some m => .error m
  | none =>
    match getItem store filePath with
    | some _ => .error "Invalid request: sha wasn't supplied"
    | none => .ok (createItem store filePath item, evs)

/-- GitHubFileClient.updateYamlFrontMatter (getFileSha.js lines 108-126):
readFile the current file — throwing when it does not resolve (lines 26-47)
— merge the updates into its front matter, and writeFile the result back.
Neither step persists anything when it throws, so the single `outcome`
covers an API failure of either; `f` is the front-matter merge (the call
sites never pass a null update, so no key is ever deleted). -/
def updateYamlFrontMatter (store : Store) (filePath : String) (f : Item → Item)
    (evs : List Ev) (outcome : Option String) : Except String (Store × List Ev) :=
  match outcome with
  | some m => .error m
  | none =>
    match getItem store filePath with
    | none => .error "Not Found"
    | some _ => .ok (updateItem store filePath f, evs)

end GitHubFileClient

namespace GitResearchCommand

/-- Outcomes of the external calls of one `GitResearchCommand.processTopic`
run (src/src/commands/git/GitResearchCommand.js), in call order: the
in-progress front-matter update, the Perplexity call, the full-file write of
the researched content, the final status update, and the error-recording
update of the catch block. -/
structure Env where
  updateInProgress : Option String
  research : Except String Research
  writeFile : Option String
  updateComplete : Option String
  updateError : Option String

/-- All external calls of the main path succeed. -/
def Env.allOk (env : Env) : Prop :=
  env.updateInProgress = none ∧ (∃ r, env.research = .ok r) ∧
    env.writeFile = none ∧ env.updateComplete = none

/-- GitResearchCommand.processTopic (GitResearchCommand.js lines 136-216):
return immediately on dry-run; otherwise merge status "Research In Progress"
into the file's front matter, call the research provider, enhance the content
with citations, rewrite the file with the enhanced body and front matter
`{...currentFrontMatter, status: "Ready for Draft"}`, then merge status
"Research Complete".  On any failure, merge `{status: "Error", error_message:
error.message}` (no fallback for an empty message); a failure of that update
is itself logged and swallowed. -/
def processTopic (store : Store) (topicFilePath topicTitle : String)
    (currentFrontMatter : Item) (dryRun : Bool) (env : Env) : Store × List Ev :=
  if dryRun then (store, [])
  else
    let onError := fun (store' : Store) (tr : List Ev) (m : String) =>
      match GitHubFileClient.updateYamlFrontMatter store' topicFilePath
          (fun it => { it with status := "Error", errorMsg := some m })
          [Ev.statusWrite topicFilePath "Error", Ev.errorWrite topicFilePath m]
          env.updateError with
      | .error _ => (store', tr)
      | .ok (s2, evs2) => (s2, tr ++ evs2)
    match GitHubFileClient.updateYamlFrontMatter store topicFilePath
        (fun it => { it with status := "Research In Progress" })
        [Ev.statusWrite topicFilePath "Research In Progress"] env.updateInProgress with
    | .error m => onError store [] m
    | .ok (store1, tr1) =>
      let tr2 := tr1 ++ [Ev.providerCall topicTitle ((getItem store1 topicFilePath).map Item.status)]
      match env.research with
      | .error m => onError store1 tr2 m
      | .ok researchResult =>
        let enhancedContent := enhanceContent researchResult.content researchResult.citations
        let updatedItem : Item :=
          { currentFrontMatter with status := "Ready for Draft", body := enhancedContent }
        match GitHubFileClient.writeFile store1 topicFilePath updatedItem
            [Ev.statusWrite topicFilePath "Ready for Draft",
             Ev.bodyWrite topicFilePath enhancedContent] env.writeFile with
        | .error m => onError store1 tr2 m
        | .ok (store2, evs2) =>
          let tr3 := tr2 ++ evs2
          match GitHubFileClient.updateYamlFrontMatter store2 topicFilePath
              (fun it => { it with status := "Research Complete" })
              [Ev.statusWrite topicFilePath "Research Complete"] env.updateComplete with
          | .error m => onError store2 tr3 m
          | .ok (store3, evs3) => (store3, tr3 ++ evs3)

end GitResearchCommand

namespace DraftwriterCommand

/-- Outcomes of the external calls of one `DraftwriterCommand.processDraft`
run (src/src/commands/draftwriter.js), in call order: the "Writing in
Progress" update on the research brief, the companion blog post's
"Draft In Progress" update, the Claude call, the two calls inside
`NotionClient.createBlogDraft` (page creation, block append), the brief's
"Research Processed" update, the companion's "Draft Created" update, and the
two catch-block calls (status reset, error recording). -/
structure Env where
  updateWriting : Option String
  updateCompanionInProgress : Option String
  claude : Except String String
  createPage : Option String
  newDraftId : String
  appendBlocks : Option String
  updateProcessed : Option String
  updateCompanionCreated : Option String
  resetStatus : Option String
  recordError : Option String

/-- All external calls of the main path succeed. -/
def Env.allOk (env : Env) : Prop :=
  env.updateWriting = none ∧ env.updateCompanionInProgress = none ∧
    (∃ c, env.claude = .ok c) ∧ env.createPage = none ∧
    env.appendBlocks = none ∧ env.updateProcessed = none ∧
    env.updateCompanionCreated = none

/-- DraftwriterCommand.processDraft (draftwriter.js lines 157-237): persist
"Writing in Progress" on the research brief, stop if dry-run, best-effort
advance the companion blog post to "Draft In Progress" (inside the try, so
its failure aborts the stage), call Claude, then
NotionClient.createBlogDraft (client.js lines 208-282): create a new page
with status "Ready for Review" whose "Blog Posts" relation is the companion
blog post id when present, and append the generated content.  Then the brief
advances to "Research Processed" and the companion to "Draft Created".  The
catch block resets the brief to "Ready to Start" (failure swallowed) and, if
a companion id is known, records the error there with a fallback message. -/
def processDraft (store : Store) (draftId draftTitle researchContent : String)
    (blogPostId : Option String) (dryRun : Bool) (env : Env) : Store × List Ev :=
  let onError := fun (store' : Store) (tr : List Ev) (m : String) =>
    let (storeA, trA) :=
      match env.resetStatus with
      | some _ => (store', tr)
      | none =>
          (updateItem store' draftId (fun it => { it with status := "Ready to Start" }),
           tr ++ [Ev.statusWrite draftId "Ready to Start"])
    match blogPostId with
    | none => (storeA, trA)
    | some pid =>
        let errorMessage := if m = "" then "Unknown error occurred during draft writing" else m
        ResearchCommand.updateBlogPostError storeA trA pid errorMessage env.recordError
  match env.updateWriting with
  | some m => onError store [] m
  | none =>
    let store1 := updateItem store draftId (fun it => { it with status := "Writing in Progress" })
    let tr1 := [Ev.statusWrite draftId "Writing in Progress"]
    if dryRun then (store1, tr1)
    else
      let afterCompanion : Except String (Store × List Ev) :=
        match blogPostId with
        | none => .ok (store1, tr1)
        | some pid =>
          match env.updateCompanionInProgress with
          | some m => .error m
          | none =>
              .ok (updateItem store1 pid (fun it => { it with status := "Draft In Progress" }),
                   tr1 ++ [Ev.statusWrite pid "Draft In Progress"])
      match afterCompanion with
      | .error m => onError store1 tr1 m
      | .ok (store2, tr2) =>
        let tr3 := tr2 ++ [Ev.providerCall draftTitle ((getItem store2 draftId).map Item.status)]
        match env.claude with
        | .error m => onError store2 tr3 m
        | .ok content =>
          match env.createPage with
          | some m => onError store2 tr3 m
          | none =>
            let draftItem : Item :=
              { title := draftTitle, status := "Ready for Review", relation := blogPostId }
            let store3 := createItem store2 env.newDraftId draftItem
            let tr4 := tr3 ++ [Ev.create env.newDraftId draftItem]
            match env.appendBlocks with
            | some m => onError store3 tr4 m
            | none =>
              let store4 := updateItem store3 env.newDraftId
                (fun it => { it with body := content })
              let tr5 := tr4 ++ [Ev.bodyWrite env.newDraftId content]
              match env.updateProcessed with
              | some m => onError store4 tr5 m
              | none =>
                let store5 := updateItem store4 draftId
                  (fun it => { it with status := "Research Processed" })
                let tr6 := tr5 ++ [Ev.statusWrite draftId "Research Processed"]
                match blogPostId with
                | none => (store5, tr6)
                | some pid =>
                  match env.updateCompanionCreated with
                  | some m => onError store5 tr6 m
                  | none =>
                      (updateItem store5 pid (fun it => { it with status := "Draft Created" }),
                       tr6 ++ [Ev.statusWrite pid "Draft Created"])

end DraftwriterCommand

namespace GitDraftwriterCommand

/-- Outcomes of the external calls of one `GitDraftwriterCommand.processDraft`
run (src/src/commands/git/GitDraftwriterCommand.js), in call order: the
"Draft In Progress" update on the research file, the Claude call, the draft
file creation, the research file's "Draft Complete" update, the blog file's
"Draft Complete" update, and the catch-block error updates (research file,
then — when the blog file's SHA can be fetched — the blog file). -/
structure Env where
  updateInProgress : Option String
  claude : Except String String
  createFile : Option String
  updateComplete : Option String
  updateBlogComplete : Option String
  updateError : Option String
  blogShaFound : Bool
  updateBlogError : Option String

/-- All external calls of the main path succeed. -/
def Env.allOk (env : Env) : Prop :=
  env.updateInProgress = none ∧ (∃ c, env.claude = .ok c) ∧
    env.createFile = none ∧ env.updateComplete = none ∧
    env.updateBlogComplete = none

/-- GitDraftwriterCommand.processDraft (GitDraftwriterCommand.js lines
125-233): return immediately on dry-run; otherwise merge status
"Draft In Progress" into the research file, call Claude, create the draft
file at `draftPath` with front matter `{title: "Draft: " ++ title,
research_brief_filePath, blog_post_filePath, status: "Ready for Review"}` and
the generated content as body, then merge status "Draft Complete" into the
research file and, when a blog file path is known, into the blog file.  On
any failure, merge `{status: "Error", error_message: "Drafting failed: " ++
message}` into the research file and best-effort into the blog file; a
failure inside that handler is logged and swallowed. -/
def processDraft (store : Store) (researchFilePath researchFileTitle researchContent : String)
    (originalBlogFilePath : Option String) (draftPath : String) (dryRun : Bool)
    (env : Env) : Store × List Ev :=
  if dryRun then (store, [])
  else
    let onError := fun (store' : Store) (tr : List Ev) (m : String) =>
      let emsg := "Drafting failed: " ++ m
      match GitHubFileClient.updateYamlFrontMatter store' researchFilePath
          (fun it => { it with status := "Error", errorMsg := some emsg })
          [Ev.statusWrite researchFilePath "Error", Ev.errorWrite researchFilePath emsg]
          env.updateError with
      | .error _ => (store', tr)
      | .ok (s2, evs2) =>
        match originalBlogFilePath with
        | none => (s2, tr ++ evs2)
        | some bp =>
          if env.blogShaFound then
            match GitHubFileClient.updateYamlFrontMatter s2 bp
                (fun it => { it with status := "Error", errorMsg := some emsg })
                [Ev.statusWrite bp "Error", Ev.errorWrite bp emsg] env.updateBlogError with
            | .error _ => (s2, tr ++ evs2)
            | .ok (s3, evs3) => (s3, tr ++ evs2 ++ evs3)
          else (s2, tr ++ evs2)
    match GitHubFileClient.updateYamlFrontMatter store researchFilePath
        (fun it => { it with status := "Draft In Progress" })
        [Ev.statusWrite researchFilePath "Draft In Progress"] env.updateInProgress with
    | .error m => onError store [] m
    | .ok (store1, tr1) =>
      let tr2 := tr1 ++
        [Ev.providerCall researchFileTitle ((getItem store1 researchFilePath).map Item.status)]
      match env.claude with
      | .error m => onError store1 tr2 m
      | .ok content =>
        let draftItem : Item :=
          { title := "Draft: " ++ researchFileTitle, status := "Ready for Review",
            body := content, briefRef := some researchFilePath,
            relation := originalBlogFilePath }
        match GitHubFileClient.createFile store1 draftPath draftItem
            [Ev.create draftPath draftItem] env.createFile with
        | .error m => onError store1 tr2 m
        | .ok (store2, evs2) =>
          let tr3 := tr2 ++ evs2
          match GitHubFileClient.updateYamlFrontMatter store2 researchFilePath
              (fun it => { it with status := "Draft Complete" })
              [Ev.statusWrite researchFilePath "Draft Complete"] env.updateComplete with
          | .error m => onError store2 tr3 m
          | .ok (store3, evs3) =>
            let tr4 := tr3 ++ evs3
            match originalBlogFilePath with
            | none => (store3, tr4)
            | some bp =>
              match GitHubFileClient.updateYamlFrontMatter store3 bp
                  (fun it => { it with status := "Draft Complete" })
                  [Ev.statusWrite bp "Draft Complete"] env.updateBlogComplete with
              | .error m => onError store3 tr4 m
              | .ok (store4, evs4) => (store4, tr4 ++ evs4)

end GitDraftwriterCommand

/-- NotionClient.getBlogPostsReadyForResearch (src/src/shared/notion/client.js
lines 14-26): a database query whose filter keeps exactly the items whose
Status property equals "Ready for Research". -/
def getBlogPostsReadyForResearch (store : Store) : List (String × Item) :=
  store.filter (fun p => p.2.status == "Ready for Research")

/-- ResearchAction.getFilesReadyForResearch (copilot-github-actions
src/actions/research-action.ts lines 83-99): read each candidate file,
skipping unreadable ones, and keep the paths whose front-matter status is
exactly "Ready for Research". -/
def getFilesReadyForResearch (readFile : String → Except String Item) :
    List String → List String
  | [] => []
  | p :: rest =>
    match readFile p with
    | .error _ => getFilesReadyForResearch readFile rest
    | .ok fileContent =>
      if fileContent.status = "Ready for Research" then
        p :: getFilesReadyForResearch readFile rest
      else getFilesReadyForResearch readFile rest

/-- The status-transition table of `isValidStatusTransition`
(copilot-github-actions src/utils/helpers.ts lines 322-341). -/
def validTransitions : List (String × List String) :=
  [("Ready for Research", ["Research In Progress", "Error"]),
   ("Research In Progress", ["Ready for Draft", "Error"]),
   ("Ready for Draft", ["Draft In Progress", "Error"]),
   ("Draft In Progress", ["Ready for Review", "Draft Complete", "Error"]),
   ("Ready for Review", ["Published", "Error"]),
   ("Draft Complete", ["Ready for Review", "Error"]),
   ("Error", ["Ready for Research", "Ready for Draft", "Ready for Review"]),
   ("Published", [])]

/-- isValidStatusTransition (helpers.ts lines 322-341): a transition is valid
when the target occurs in the source status's row of the table; a source
missing from the table admits nothing. -/
def isValidStatusTransition (fromStatus toStatus : String) : Bool :=
  match validTransitions.lookup fromStatus with
  | some l => l.contains toStatus
  | none => false

/-- The status vocabulary of the WorkflowStatus type (copilot-github-actions
src/types/index.ts). -/
def workflowStatuses : List String :=
  ["Ready for Research", "Research In Progress", "Ready for Draft",
   "Draft In Progress", "Ready for Review", "Draft Complete", "Error",
   "Published"]

/-- The transition relation exactly as claimed by the spec sentence: the
forward chain with "Ready for Review" terminal, Error reachable only from
the in-progress states, and recovery from Error only to a stage's starting
state.  Stated from the claim's words, for comparison with
`isValidStatusTransition`. -/
def claimedTransition (fromStatus toStatus : String) : Bool :=
  (fromStatus == "Ready for Research" && toStatus == "Research In Progress") ||
  (fromStatus == "Research In Progress" && toStatus == "Ready for Draft") ||
  (fromStatus == "Ready for Draft" && toStatus == "Draft In Progress") ||
  (fromStatus == "Draft In Progress" && toStatus == "Ready for Review") ||
  ((fromStatus == "Research In Progress" || fromStatus == "Draft In Progress") &&
    toStatus == "Error") ||
  (fromStatus == "Error" &&
    (toStatus == "Ready for Research" || toStatus == "Ready for Draft"))

/-- The pairs admitted by the code's transition table, listed explicitly. -/
def codeTransitionPairs : List (String × String) :=
  [("Ready for Research", "Research In Progress"), ("Ready for Research", "Error"),
   ("Research In Progress", "Ready for Draft"), ("Research In Progress", "Error"),
   ("Ready for Draft", "Draft In Progress"), ("Ready for Draft", "Error"),
   ("Draft In Progress", "Ready for Review"), ("Draft In Progress", "Draft Complete"),
   ("Draft In Progress", "Error"),
   ("Ready for Review", "Published"), ("Ready for Review", "Error"),
   ("Draft Complete", "Ready for Review"), ("Draft Complete", "Error"),
   ("Error", "Ready for Research"), ("Error", "Ready for Draft"),
   ("Error", "Ready for Review")]

/-- A thrown JavaScript error as seen by the Devin actions' catch blocks:
its message plus the `topicId` / `draftId` / `blogPostId` properties those
catch blocks test.  Every throw site in the two actions builds a plain
`Error` (or re-throws a provider/store error, none of which define these
properties), so construction always leaves them `none`. -/
structure JsError where
  message : String
  topicId : Option String := none
  draftId : Option String := none
  blogPostId : Option String := none

namespace DevinResearch

/-- Outcomes of the external calls of one run of the Devin research action
(devin-github-actions actions/monitor-side research workflow, second half of
actions/draft-writing/index.js): the query result (ids with extracted
titles), then the same call sequence as the CLI research command. -/
structure Env where
  queryTopics : List (String × Option String)
  updateInProgress : Option String
  research : Except String Research
  createPage : Option String
  newBriefId : String
  appendBlocks : Option String
  updateReadyForDraft : Option String
  recordError : Option String

/-- The Devin research action's run() (lines 318-407 of the concatenated
index.js): query for "Ready for Research" topics, take the first, skip it if
the title is missing or empty, persist "Research In Progress", research the
topic (provider failures re-thrown as fresh errors with a prefixed message),
enhance with citations, create the research brief, and advance the topic to
"Ready for Draft".  The top-level catch calls setFailed and then only acts
when `error.topicId` is set — which no throw site ever sets. -/
def run (store : Store) (env : Env) : Store × List Ev :=
  let onError := fun (store' : Store) (tr : List Ev) (e : JsError) =>
    match e.topicId with
    | none => (store', tr)
    | some tid =>
        let errorMessage := if e.message = "" then "Unknown error occurred during research" else e.message
        match env.recordError with
        | some _ => (store', tr)
        | none =>
            (updateItem store' tid
              (fun it => { it with status := "Error", errorMsg := some errorMessage }),
             tr ++ [Ev.errorWrite tid errorMessage])
  match env.queryTopics with
  | [] => (store, [])
  | (topicId, topicTitle) :: _ =>
    match topicTitle with
    | none => (store, [])
    | some t =>
      if t = "" then (store, [])
      else
        match env.updateInProgress with
        | some m => onError store [] { message := m }
        | none =>
          let store1 := updateItem store topicId
            (fun it => { it with status := "Research In Progress" })
          let tr1 := [Ev.statusWrite topicId "Research In Progress"]
          let tr2 := tr1 ++ [Ev.providerCall t ((getItem store1 topicId).map Item.status)]
          match env.research with
          | .error m => onError store1 tr2 { message := "Perplexity API error: " ++ m }
          | .ok research =>
            let enhancedContent := enhanceContent research.content research.citations
            match env.createPage with
            | some m => onError store1 tr2 { message := m }
            | none =>
              let brief : Item :=
                { title := t, status := "Ready to Start", relation := some topicId }
              let store2 := createItem store1 env.newBriefId brief
              let tr3 := tr2 ++ [Ev.create env.newBriefId brief]
              match env.appendBlocks with
              | some m => onError store2 tr3 { message := m }
              | none =>
                let store3 := updateItem store2 env.newBriefId
                  (fun it => { it with body := enhancedContent })
                let tr4 := tr3 ++ [Ev.bodyWrite env.newBriefId enhancedContent]
                match env.updateReadyForDraft with
                | some m => onError store3 tr4 { message := m }
                | none =>
                  (updateItem store3 topicId (fun it => { it with status := "Ready for Draft" }),
                   tr4 ++ [Ev.statusWrite topicId "Ready for Draft"])

end DevinResearch

namespace DevinDraft

/-- Outcomes of the external calls of one run of the Devin draft-writing
action (first half of actions/draft-writing/index.js): the query result
(draft id, extracted title, research page content, companion blog post
relation), then the same call sequence as the CLI draftwriter command. -/
structure Env where
  queryDrafts : List (String × Option String × String × Option String)
  updateWriting : Option String
  updateCompanionInProgress : Option String
  claude : Except String String
  createPage : Option String
  newDraftId : String
  appendBlocks : Option String
  updateProcessed : Option String
  updateCompanionCreated : Option String
  recordError : Option String

/-- The Devin draft-writing action's run() (lines 8-135 of index.js): query
for "Ready to Start" drafts, take the first, skip it when title or content is
missing, persist "Writing in Progress" on the draft, advance the companion to
"Draft In Progress", generate the post with Claude (failures re-thrown as
fresh errors with a prefixed message), create the new blog draft page with
status "Ready for Review" related to the companion, then advance the draft to
"Research Processed" and the companion to "Draft Created".  The catch calls
setFailed and only rolls back / records the error when `error.draftId` is
set — which no throw site ever sets. -/
def run (store : Store) (env : Env) : Store × List Ev :=
  let onError := fun (store' : Store) (tr : List Ev) (e : JsError) =>
    match e.draftId with
    | none => (store', tr)
    | some did =>
        let (storeA, trA) :=
          (updateItem store' did (fun it => { it with status := "Ready to Start" }),
           tr ++ [Ev.statusWrite did "Ready to Start"])
        match e.blogPostId with
        | none => (storeA, trA)
        | some pid =>
            let errorMessage := if e.message = "" then "Unknown error occurred during draft writing" else e.message
            match env.recordError with
            | some _ => (storeA, trA)
            | none =>
                (updateItem storeA pid
                  (fun it => { it with status := "Error", errorMsg := some errorMessage }),
                 trA ++ [Ev.errorWrite pid errorMessage])
  match env.queryDrafts with
  | [] => (store, [])
  | (draftId, draftTitle, researchContent, blogPostRelation) :: _ =>
    match draftTitle with
    | none => (store, [])
    | some t =>
      if t = "" ∨ researchContent = "" then (store, [])
      else
        match env.updateWriting with
        | some m => onError store [] { message := m }
        | none =>
          let store1 := updateItem store draftId
            (fun it => { it with status := "Writing in Progress" })
          let tr1 := [Ev.statusWrite draftId "Writing in Progress"]
          let afterCompanion : Except String (Store × List Ev) :=
            match blogPostRelation with
            | none => .ok (store1, tr1)
            | some pid =>
              match env.updateCompanionInProgress with
              | some m => .error m
              | none =>
                  .ok (updateItem store1 pid (fun it => { it with status := "Draft In Progress" }),
                       tr1 ++ [Ev.statusWrite pid "Draft In Progress"])
          match afterCompanion with
          | .error m => onError store1 tr1 { message := m }
          | .ok (store2, tr2) =>
            let tr3 := tr2 ++ [Ev.providerCall t ((getItem store2 draftId).map Item.status)]
            match env.claude with
            | .error m => onError store2 tr3 { message := "Claude API error: " ++ m }
            | .ok content =>
              match env.createPage with
              | some m => onError store2 tr3 { message := m }
              | none =>
                let draftItem : Item :=
                  { title := t, status := "Ready for Review", relation := blogPostRelation }
                let store3 := createItem store2 env.newDraftId draftItem
                let tr4 := tr3 ++ [Ev.create env.newDraftId draftItem]
                match env.appendBlocks with
                | some m => onError store3 tr4 { message := m }
                | none =>
                  let store4 := updateItem store3 env.newDraftId
                    (fun it => { it with body := content })
                  let tr5 := tr4 ++ [Ev.bodyWrite env.newDraftId content]
                  match env.updateProcessed with
                  | some m => onError store4 tr5 { message := m }
                  | none =>
                    let store5 := updateItem store4 draftId
                      (fun it => { it with status := "Research Processed" })
                    let tr6 := tr5 ++ [Ev.statusWrite draftId "Research Processed"]
                    match blogPostRelation with
                    | none => (store5, tr6)
                    | some pid =>
                      match env.updateCompanionCreated with
                      | some m => onError store5 tr6 { message := m }
                      | none =>
                          (updateItem store5 pid
                            (fun it => { it with status := "Draft Created" }),
                           tr6 ++ [Ev.statusWrite pid "Draft Created"])

end DevinDraft

/-- An eligible research topic, as in Scenario 1 of the spec. -/
def demoItem : Item := { title := "Foo", status := "Ready for Research" }

/-- A one-item store holding the eligible topic under id "t1". -/
def demoStore : Store := [("t1", demoItem)]

/-- The provider result of Scenario 1: content "bar", no citations. -/
def demoResearch : Research := { content := "bar", citations := [] }

/-- An all-success environment for the CLI research command. -/
def demoResearchEnv : ResearchCommand.Env :=
  { updateInProgress := none, research := .ok demoResearch, createPage := none,
    newBriefId := "b1", appendBlocks := none, updateReadyForDraft := none,
    recordError := none }

/-- An all-success environment for the git research command. -/
def demoGitEnv : GitResearchCommand.Env :=
  { updateInProgress := none, research := .ok demoResearch, writeFile := none,
    updateComplete := none, updateError := none }

/-- C1: in both research variants, every provider call in the run's trace is
preceded by a persisted write of "Research In Progress" on the processed
item, and observes "Research In Progress" (never the entry status) as the
item's persisted status. -/
theorem research_in_progress_persisted_before_provider :
    (∀ (store : Store) (topicId topicTitle : String) (dryRun : Bool)
        (env : ResearchCommand.Env) (it : Item), getItem store topicId = some it →
        providerGuarded topicId "Research In Progress"
          (ResearchCommand.processTopic store topicId topicTitle dryRun env).2)
  ∧ (∀ (store : Store) (topicFilePath topicTitle : String) (fm : Item) (dryRun : Bool)
        (env : GitResearchCommand.Env) (it : Item), getItem store topicFilePath = some it →
        providerGuarded topicFilePath "Research In Progress"
          (GitResearchCommand.processTopic store topicFilePath topicTitle fm dryRun env).2) := by
  constructor
  · rintro store topicId topicTitle dryRun ⟨u1, res, cp, nb, ab, ur, re⟩ it h
    cases u1 <;> cases res <;> cases cp <;> cases ab <;> cases ur <;> cases re <;>
      cases dryRun <;>
      simp [ResearchCommand.processTopic, ResearchCommand.updateBlogPostError,
        providerGuarded, providerGuardedFrom, getItem_updateItem_self, h]
  · rintro store topicFilePath topicTitle fm dryRun ⟨u1, res, wf, uc, ue⟩ it h
    cases u1 <;> cases res <;> cases wf <;> cases uc <;> cases ue <;> cases dryRun <;>
      simp [GitResearchCommand.processTopic, GitHubFileClient.updateYamlFrontMatter, GitHubFileClient.writeFile,
        GitHubFileClient.createFile, getItem_setItem_self, getItem_setItem_ne,
        providerGuarded, providerGuardedFrom, getItem_updateItem_self, h]

/-- C1 witness: the discipline holds on the concrete Scenario 1 run. -/
theorem research_in_progress_persisted_before_provider_witness :
    providerGuarded "t1" "Research In Progress"
      (ResearchCommand.processTopic demoStore "t1" "Foo" false demoResearchEnv).2 :=
  research_in_progress_persisted_before_provider.1 demoStore "t1" "Foo" false
    demoResearchEnv demoItem (by decide)

/-- C6: the enhanced body is the provider content followed, when citations
exist, by a Sources header and one 1-indexed line per citation in provider
order; citations ["A","B"] on content "X" give exactly
"X\n\n## Sources\n1. A\n2. B\n"; an empty citation list leaves the content
unchanged; and a successful git research run stores exactly the enhanced
content as the item's body. -/
theorem sources_section_appended :
    (∀ (c : String) (l : List String), l ≠ [] →
        enhanceContent c l = c ++ "\n\n## Sources\n" ++ sourcesLines 1 l)
  ∧ enhanceContent "X" ["A", "B"] = "X\n\n## Sources\n1. A\n2. B\n"
  ∧ (∀ c : String, enhanceContent c [] = c)
  ∧ (∀ (store : Store) (topicFilePath topicTitle : String) (fm : Item)
        (env : GitResearchCommand.Env) (r : Research) (it : Item),
        getItem store topicFilePath = some it → env.research = .ok r → env.allOk →
        (getItem (GitResearchCommand.processTopic store topicFilePath topicTitle fm
            false env).1 topicFilePath).map Item.body
          = some (enhanceContent r.content r.citations)) := by
  refine ⟨enhanceContent_eq_sources, by decide, ?_, ?_⟩
  · intro c
    simp [enhanceContent]
  · rintro store topicFilePath topicTitle fm ⟨u1, res, wf, uc, ue⟩ r it h hres ⟨h1, _, h3, h4⟩
    simp only at h1 h3 h4 hres
    subst h1 h3 h4 hres
    simp [GitResearchCommand.processTopic, GitHubFileClient.updateYamlFrontMatter, GitHubFileClient.writeFile,
        GitHubFileClient.createFile, getItem_setItem_self, getItem_setItem_ne, getItem_updateItem_self, h]

/-- C6 witness: the general formula instantiated on the round-trip example. -/
theorem sources_section_appended_witness :
    enhanceContent "X" ["A", "B"] = "X" ++ "\n\n## Sources\n" ++ sourcesLines 1 ["A", "B"] :=
  sources_section_appended.1 "X" ["A", "B"] (by decide)

/-- C3: both selection operations select only items whose status is exactly
the stage's entry status: every item returned by the Notion query has status
"Ready for Research", and every path selected by the Copilot action resolves
to a readable file whose front-matter status is "Ready for Research"; hence
an item in any other status is never selected. -/
theorem selection_requires_entry_status :
    (∀ (store : Store) (p : String × Item), p ∈ getBlogPostsReadyForResearch store →
        p.2.status = "Ready for Research")
  ∧ (∀ (readFile : String → Except String Item) (paths : List String) (p : String),
        p ∈ getFilesReadyForResearch readFile paths →
        ∃ it, readFile p = .ok it ∧ it.status = "Ready for Research") := by
  constructor
  · intro store p hp
    have := List.of_mem_filter hp
    simpa using this
  · intro readFile paths
    induction paths with
    | nil => intro p hp; simp [getFilesReadyForResearch] at hp
    | cons q rest ih =>
      intro p hp
      rw [getFilesReadyForResearch] at hp
      cases hq : readFile q with
      | error m =>
        simp only [hq] at hp
        exact ih p hp
      | ok fileContent =>
        simp only [hq] at hp
        by_cases hs : fileContent.status = "Ready for Research"
        · rw [if_pos hs] at hp
          rcases List.mem_cons.mp hp with hpq | hp2
          · exact ⟨fileContent, by rw [hpq]; exact hq, hs⟩
          · exact ih p hp2
        · rw [if_neg hs] at hp
          exact ih p hp

/-- C3 witness: the eligible demo item is selected by both operations, and
the theorem applied to those concrete selections yields its entry status. -/
theorem selection_requires_entry_status_witness :
    demoItem.status = "Ready for Research" ∧
      ∃ it, (fun _ => (Except.ok demoItem : Except String Item)) "f1" = .ok it ∧
        it.status = "Ready for Research" :=
  ⟨selection_requires_entry_status.1 demoStore ("t1", demoItem) (by decide),
   selection_requires_entry_status.2 (fun _ => .ok demoItem) ["f1"] "f1" (by decide)⟩

/-- C8: a selected item whose extracted title is absent or empty is skipped
before any processing, in both the CLI research loop and the Devin research
action: the store is untouched, the trace is empty (no status mutation, no
provider call), and the run returns normally rather than recording an
Error. -/
theorem blank_title_skipped_without_mutation :
    (∀ (store : Store) (topicId : String) (topicTitle : Option String)
        (dryRun : Bool) (env : ResearchCommand.Env),
        topicTitle = none ∨ topicTitle = some "" →
        ResearchCommand.topicStep store topicId topicTitle dryRun env = (store, []))
  ∧ (∀ (store : Store) (env : DevinResearch.Env) (topicId : String)
        (topicTitle : Option String) (rest : List (String × Option String)),
        env.queryTopics = (topicId, topicTitle) :: rest →
        topicTitle = none ∨ topicTitle = some "" →
        DevinResearch.run store env = (store, [])) := by
  constructor
  · rintro store topicId topicTitle dryRun env (rfl | rfl) <;>
      simp [ResearchCommand.topicStep]
  · rintro store env topicId topicTitle rest hq (rfl | rfl) <;>
      simp [DevinResearch.run, hq]

/-- C8 witness: an eligible item with an empty title is skipped untouched. -/
theorem blank_title_skipped_without_mutation_witness :
    ResearchCommand.topicStep demoStore "t1" (some "") false demoResearchEnv
      = (demoStore, []) :=
  blank_title_skipped_without_mutation.1 demoStore "t1" (some "") false
    demoResearchEnv (Or.inr rfl)

/-- C9 counterexample: the code admits the transition
"Ready for Research" → "Error", but the claimed state machine allows Error
only from the in-progress states, so the claimed relation rejects it. -/
theorem transition_table_counterexample :
    isValidStatusTransition "Ready for Research" "Error" = true ∧
      claimedTransition "Ready for Research" "Error" = false := by
  decide

/-- C9 amended: over the code's status vocabulary, the transition relation
admits exactly the table's pairs: the forward chain plus
Draft In Progress → Draft Complete, Ready for Review → Published (so
Ready for Review is not terminal), Draft Complete → Ready for Review, Error
reachable from every status except Error and Published (not only from
in-progress states), and recovery from Error to Ready for Research,
Ready for Draft, or Ready for Review. -/
theorem transition_table_characterization :
    ∀ fromStatus : String, fromStatus ∈ workflowStatuses →
    ∀ toStatus : String, toStatus ∈ workflowStatuses →
      (isValidStatusTransition fromStatus toStatus = true ↔
        (fromStatus, toStatus) ∈ codeTransitionPairs) := by
  intro f hf t ht
  fin_cases hf <;> fin_cases ht <;> decide

/-- C9 witness: the characterization instantiated on the first forward
transition. -/
theorem transition_table_characterization_witness :
    isValidStatusTransition "Ready for Research" "Research In Progress" = true :=
  (transition_table_characterization "Ready for Research" (by decide)
    "Research In Progress" (by decide)).mpr (by decide)

/-- C10: in the Devin actions no thrown error ever carries the topicId /
draftId property tested by the catch blocks, so the rollback and
error-recording branches are unreachable: no run of the research action ever
emits an error write; a provider failure after the in-progress write leaves
the topic persisted at "Research In Progress" with its error message
untouched; no run of the draft action ever emits an error write or a
rollback to "Ready to Start"; and a Claude failure after the in-progress
write leaves the draft persisted at "Writing in Progress". -/
theorem devin_error_branches_unreachable :
    (∀ (store : Store) (env : DevinResearch.Env) (id m : String),
        Ev.errorWrite id m ∉ (DevinResearch.run store env).2)
  ∧ (∀ (store : Store) (env : DevinResearch.Env) (topicId t msg : String)
        (rest : List (String × Option String)) (it : Item),
        env.queryTopics = (topicId, some t) :: rest → t ≠ "" →
        env.updateInProgress = none → env.research = .error msg →
        getItem store topicId = some it →
        getItem (DevinResearch.run store env).1 topicId
          = some { it with status := "Research In Progress" })
  ∧ (∀ (store : Store) (env : DevinDraft.Env) (id m : String),
        Ev.errorWrite id m ∉ (DevinDraft.run store env).2 ∧
        Ev.statusWrite id "Ready to Start" ∉ (DevinDraft.run store env).2)
  ∧ (∀ (store : Store) (env : DevinDraft.Env) (draftId t rc msg : String)
        (bp : Option String) (rest : List (String × Option String × String × Option String))
        (it : Item),
        env.queryDrafts = (draftId, some t, rc, bp) :: rest → t ≠ "" → rc ≠ "" →
        env.updateWriting = none → env.updateCompanionInProgress = none →
        env.claude = .error msg →
        (bp = none ∨ ∃ pid, bp = some pid ∧ pid ≠ draftId) →
        getItem store draftId = some it →
        getItem (DevinDraft.run store env).1 draftId
          = some { it with status := "Writing in Progress" }) := by
  refine ⟨?_, ?_, ?_, ?_⟩
  · rintro store ⟨qt, u1, res, cp, nb, ab, ur, re⟩ id m
    rcases qt with _ | ⟨⟨tid, tt⟩, rest⟩
    · simp [DevinResearch.run]
    · rcases tt with _ | t
      · simp [DevinResearch.run]
      · by_cases ht : t = "" <;>
          cases u1 <;> cases res <;> cases cp <;> cases ab <;> cases ur <;>
            simp [DevinResearch.run, ht]
  · rintro store ⟨qt, u1, res, cp, nb, ab, ur, re⟩ topicId t msg rest it hq ht h1 hres h
    simp only at hq h1 hres
    subst hq h1 hres
    simp [DevinResearch.run, ht, getItem_updateItem_self, h]
  · rintro store ⟨qd, u1, uc, cl, cp, nd, ab, up, uc2, re⟩ id m
    rcases qd with _ | ⟨⟨did, dt, rc, bp⟩, rest⟩
    · simp [DevinDraft.run]
    · rcases dt with _ | t
      · simp [DevinDraft.run]
      · by_cases hsk : t = "" ∨ rc = ""
        · simp [DevinDraft.run, hsk]
        · rcases bp with _ | pid <;>
            cases u1 <;> cases uc <;> cases cl <;> cases cp <;> cases ab <;>
              cases up <;> cases uc2 <;>
              simp [DevinDraft.run, hsk]
  · rintro store ⟨qd, u1, uc, cl, cp, nd, ab, up, uc2, re⟩ draftId t rc msg bp rest it
      hq ht hrc h1 h2 hcl hbp h
    simp only at hq h1 h2 hcl
    subst hq h1 h2 hcl
    have hsk : ¬(t = "" ∨ rc = "") := by simp [ht, hrc]
    rcases hbp with rfl | ⟨pid, rfl, hpid⟩
    · simp [DevinDraft.run, hsk, getItem_updateItem_self, h]
    · simp [DevinDraft.run, hsk, getItem_updateItem_self,
        getItem_updateItem_ne _ _ _ _ hpid.symm, h]

/-- C10 witness: a concrete Devin research run whose provider fails leaves
the topic parked at "Research In Progress" and records no error write. -/
theorem devin_error_branches_unreachable_witness :
    getItem (DevinResearch.run demoStore
        { queryTopics := [("t1", some "Foo")], updateInProgress := none,
          research := .error "boom", createPage := none, newBriefId := "b1",
          appendBlocks := none, updateReadyForDraft := none, recordError := none }).1 "t1"
      = some { demoItem with status := "Research In Progress" } :=
  devin_error_branches_unreachable.2.1 demoStore
    { queryTopics := [("t1", some "Foo")], updateInProgress := none,
      research := .error "boom", createPage := none, newBriefId := "b1",
      appendBlocks := none, updateReadyForDraft := none, recordError := none }
    "t1" "Foo" "boom" [] demoItem rfl (by decide) rfl rfl (by decide)

theorem fallback_nonempty (m fb : String) (hfb : fb ≠ "") :
    (if m = "" then fb else m) ≠ "" := by
  split
  · exact hfb
  · assumption

/-- An environment in which the provider call fails and the error-recording
store write fails as well. -/
def demoFailBothEnv : ResearchCommand.Env :=
  { updateInProgress := none, research := .error "boom", createPage := none,
    newBriefId := "b1", appendBlocks := none, updateReadyForDraft := none,
    recordError := some "store down" }

/-- C2 counterexample: when the provider fails and the error-recording write
itself fails, the run swallows both and persists nothing, so the item stays
at "Research In Progress" with no error message — the run does not persist
status "Error" as claimed. -/
theorem error_not_persisted_counterexample :
    getItem (ResearchCommand.processTopic demoStore "t1" "Foo" false demoFailBothEnv).1 "t1"
        = some { demoItem with status := "Research In Progress" } ∧
      ("Research In Progress" : String) ≠ "Error" ∧
      { demoItem with status := "Research In Progress" }.errorMsg = none := by
  refine ⟨by decide, by decide, rfl⟩

/-- C2 amended: when any step after selection fails and the error-recording
write itself succeeds, both research variants catch the failure, persist
status "Error" on the item being processed, and return normally.  The CLI
variant records a never-empty message (empty failure messages fall back to
"Unknown error occurred during research"); the git variant records the raw
failure message, which is non-empty only when the failure's message is. -/
theorem failure_records_error_status :
    (∀ (store : Store) (topicId topicTitle : String) (env : ResearchCommand.Env)
        (it : Item), getItem store topicId = some it → ¬ env.allOk →
        env.recordError = none → env.newBriefId ≠ topicId →
        ∃ m, getItem (ResearchCommand.processTopic store topicId topicTitle false env).1 topicId
            = some { it with status := "Error", errorMsg := some m } ∧ m ≠ "")
  ∧ (∀ (store : Store) (topicFilePath topicTitle : String) (fm : Item)
        (env : GitResearchCommand.Env) (it : Item), getItem store topicFilePath = some it →
        ¬ env.allOk → env.updateError = none →
        (getItem (GitResearchCommand.processTopic store topicFilePath topicTitle fm
            false env).1 topicFilePath).map Item.status = some "Error" ∧
          ∃ m, (getItem (GitResearchCommand.processTopic store topicFilePath topicTitle fm
              false env).1 topicFilePath).map Item.errorMsg = some (some m)) := by
  constructor
  · rintro store topicId topicTitle ⟨u1, res, cp, nb, ab, ur, re⟩ it h hne hre hnb
    simp only at hre hnb
    subst hre
    have hnb2 : topicId ≠ nb := Ne.symm hnb
    cases u1 with
    | some m =>
      refine ⟨if m = "" then "Unknown error occurred during research" else m, ?_,
        fallback_nonempty m _ (by decide)⟩
      simp [ResearchCommand.processTopic, ResearchCommand.updateBlogPostError,
        getItem_updateItem_self, h]
    | none =>
      cases res with
      | error m =>
        refine ⟨if m = "" then "Unknown error occurred during research" else m, ?_,
        fallback_nonempty m _ (by decide)⟩
        simp [ResearchCommand.processTopic, ResearchCommand.updateBlogPostError,
          getItem_updateItem_self, h]
      | ok r =>
        cases cp with
        | some m =>
          refine ⟨if m = "" then "Unknown error occurred during research" else m, ?_,
        fallback_nonempty m _ (by decide)⟩
          simp [ResearchCommand.processTopic, ResearchCommand.updateBlogPostError,
            getItem_updateItem_self, h]
        | none =>
          cases ab with
          | some m =>
            refine ⟨if m = "" then "Unknown error occurred during research" else m, ?_,
        fallback_nonempty m _ (by decide)⟩
            simp [ResearchCommand.processTopic, ResearchCommand.updateBlogPostError,
              getItem_updateItem_self, getItem_createItem_ne, hnb2, h]
          | none =>
            cases ur with
            | some m =>
              refine ⟨if m = "" then "Unknown error occurred during research" else m, ?_,
        fallback_nonempty m _ (by decide)⟩
              simp [ResearchCommand.processTopic, ResearchCommand.updateBlogPostError,
                getItem_updateItem_self, getItem_updateItem_ne, getItem_createItem_ne,
                hnb2, h]
            | none =>
              exact absurd ⟨rfl, ⟨r, rfl⟩, rfl, rfl, rfl⟩ hne
  · rintro store topicFilePath topicTitle fm ⟨u1, res, wf, uc, ue⟩ it h hne hue
    simp only at hue
    subst hue
    cases u1 with
    | some m =>
      refine ⟨?_, m, ?_⟩ <;>
        simp [GitResearchCommand.processTopic, GitHubFileClient.updateYamlFrontMatter, GitHubFileClient.writeFile,
        GitHubFileClient.createFile, getItem_setItem_self, getItem_setItem_ne, getItem_updateItem_self, h]
    | none =>
      cases res with
      | error m =>
        refine ⟨?_, m, ?_⟩ <;>
          simp [GitResearchCommand.processTopic, GitHubFileClient.updateYamlFrontMatter, GitHubFileClient.writeFile,
        GitHubFileClient.createFile, getItem_setItem_self, getItem_setItem_ne, getItem_updateItem_self, h]
      | ok r =>
        cases wf with
        | some m =>
          refine ⟨?_, m, ?_⟩ <;>
            simp [GitResearchCommand.processTopic, GitHubFileClient.updateYamlFrontMatter, GitHubFileClient.writeFile,
        GitHubFileClient.createFile, getItem_setItem_self, getItem_setItem_ne, getItem_updateItem_self, h]
        | none =>
          cases uc with
          | some m =>
            refine ⟨?_, m, ?_⟩ <;>
              simp [GitResearchCommand.processTopic, GitHubFileClient.updateYamlFrontMatter, GitHubFileClient.writeFile,
        GitHubFileClient.createFile, getItem_setItem_self, getItem_setItem_ne, getItem_updateItem_self, h]
          | none =>
            exact absurd ⟨rfl, ⟨r, rfl⟩, rfl, rfl⟩ hne

/-- An environment in which only the provider call fails. -/
def demoProviderFailEnv : ResearchCommand.Env :=
  { updateInProgress := none, research := .error "boom", createPage := none,
    newBriefId := "b1", appendBlocks := none, updateReadyForDraft := none,
    recordError := none }

/-- C2 witness: a concrete provider failure whose error write succeeds ends
with status "Error" and a non-empty message. -/
theorem failure_records_error_status_witness :
    ∃ m, getItem (ResearchCommand.processTopic demoStore "t1" "Foo" false
          demoProviderFailEnv).1 "t1"
        = some { demoItem with status := "Error", errorMsg := some m } ∧ m ≠ "" :=
  failure_records_error_status.1 demoStore "t1" "Foo" demoProviderFailEnv demoItem
    (by decide)
    (by rintro ⟨-, ⟨r, hr⟩, -, -, -⟩; exact Except.noConfusion hr)
    rfl (by decide)

/-- C4 counterexample: on exactly the Scenario 1 input (title "Foo", status
"Ready for Research", provider result content "bar" with no citations) the
git research variant finishes with persisted status "Research Complete", not
the claimed success status "Ready for Draft". -/
theorem research_final_status_counterexample :
    (getItem (GitResearchCommand.processTopic demoStore "t1" "Foo" demoItem false
        demoGitEnv).1 "t1").map Item.status = some "Research Complete" ∧
      ("Research Complete" : String) ≠ "Ready for Draft" := by
  exact ⟨by decide, by decide⟩

/-- C4 amended: a successful research run leaves the processed item's error
message untouched and stores the enhanced provider content; the Notion CLI
variant ends the topic at "Ready for Draft" with the content on a newly
created research brief (status "Ready to Start", related to the topic), while
the git variant writes the content into the item itself and then advances its
final persisted status to "Research Complete" (passing through
"Ready for Draft" at the body write). -/
theorem research_success_final_state :
    (∀ (store : Store) (topicId topicTitle : String) (env : ResearchCommand.Env)
        (it : Item), getItem store topicId = some it → env.allOk →
        env.newBriefId ≠ topicId →
        getItem (ResearchCommand.processTopic store topicId topicTitle false env).1 topicId
            = some { it with status := "Ready for Draft" } ∧
          ∃ r, env.research = .ok r ∧
            getItem (ResearchCommand.processTopic store topicId topicTitle false env).1
                env.newBriefId
              = some { title := topicTitle, status := "Ready to Start",
                       body := enhanceContent r.content r.citations,
                       relation := some topicId })
  ∧ (∀ (store : Store) (topicFilePath topicTitle : String) (fm : Item)
        (env : GitResearchCommand.Env) (it : Item), getItem store topicFilePath = some it →
        env.allOk →
        ∃ r, env.research = .ok r ∧
          getItem (GitResearchCommand.processTopic store topicFilePath topicTitle fm
              false env).1 topicFilePath
            = some { fm with
                     status := "Research Complete",
                     body := enhanceContent r.content r.citations }) := by
  constructor
  · rintro store topicId topicTitle ⟨u1, res, cp, nb, ab, ur, re⟩ it h
      ⟨h1, ⟨r, hr⟩, h3, h4, h5⟩ hnb
    simp only at h1 hr h3 h4 h5 hnb
    subst h1 hr h3 h4 h5
    refine ⟨?_, r, rfl, ?_⟩
    · simp [ResearchCommand.processTopic, getItem_updateItem_self,
        getItem_updateItem_ne, getItem_createItem_ne, Ne.symm hnb, h]
    · simp [ResearchCommand.processTopic, getItem_updateItem_self,
        getItem_updateItem_ne, getItem_createItem_self, hnb, h]
  · rintro store topicFilePath topicTitle fm ⟨u1, res, wf, uc, ue⟩ it h
      ⟨h1, ⟨r, hr⟩, h3, h4⟩
    simp only at h1 hr h3 h4
    subst h1 hr h3 h4
    refine ⟨r, rfl, ?_⟩
    simp [GitResearchCommand.processTopic, GitHubFileClient.updateYamlFrontMatter, GitHubFileClient.writeFile,
        GitHubFileClient.createFile, getItem_setItem_self, getItem_setItem_ne, getItem_updateItem_self, h]

/-- C4 witness: the Scenario 1 run through the Notion CLI variant ends with
the topic at "Ready for Draft" and the brief holding body "bar". -/
theorem research_success_final_state_witness :
    getItem (ResearchCommand.processTopic demoStore "t1" "Foo" false demoResearchEnv).1 "t1"
        = some { demoItem with status := "Ready for Draft" } ∧
      ∃ r, demoResearchEnv.research = .ok r ∧
        getItem (ResearchCommand.processTopic demoStore "t1" "Foo" false demoResearchEnv).1 "b1"
          = some { title := "Foo", status := "Ready to Start",
                   body := enhanceContent r.content r.citations, relation := some "t1" } :=
  research_success_final_state.1 demoStore "t1" "Foo" demoResearchEnv demoItem
    (by decide) ⟨rfl, ⟨demoResearch, rfl⟩, rfl, rfl, rfl⟩ (by decide)

/-- An event is the creation of a new item. -/
def Ev.isCreate : Ev → Bool
  | .create _ _ => true
  | _ => false

/-- The research brief processed by the draft stage. -/
def demoBrief : Item := { title := "Foo", status := "Ready to Start", relation := some "post1" }

/-- The companion blog post of the brief. -/
def demoPost : Item := { title := "Foo", status := "Ready for Draft" }

/-- A store holding the brief and its companion blog post. -/
def demoDraftStore : Store := [("brief1", demoBrief), ("post1", demoPost)]

/-- An all-success environment for the CLI draftwriter command. -/
def demoDraftEnv : DraftwriterCommand.Env :=
  { updateWriting := none, updateCompanionInProgress := none,
    claude := .ok "draft body", createPage := none, newDraftId := "d1",
    appendBlocks := none, updateProcessed := none, updateCompanionCreated := none,
    resetStatus := none, recordError := none }

/-- C5 counterexample: in a successful Notion draft run on research brief
"brief1" (the source item, which the run advances to "Research Processed"),
the newly created item's relation points at the companion blog post "post1",
not back at "brief1" from which the draft was produced. -/
theorem draft_relation_counterexample :
    (getItem (DraftwriterCommand.processDraft demoDraftStore "brief1" "Foo" "research"
        (some "post1") false demoDraftEnv).1 "d1").map Item.relation = some (some "post1") ∧
      (getItem (DraftwriterCommand.processDraft demoDraftStore "brief1" "Foo" "research"
          (some "post1") false demoDraftEnv).1 "brief1").map Item.status
        = some "Research Processed" ∧
      (some "post1" : Option String) ≠ some "brief1" := by
  refine ⟨by decide, by decide, by decide⟩

/-- C5 amended: every successful draft run creates exactly one new item with
status "Ready for Review" and the draft provider's output as body; the git
variant's new item records the source research file in its
`research_brief_filePath` front matter (and the blog post in
`blog_post_filePath`), while the Notion variants set the new item's relation
to the companion blog post when one exists — absent otherwise — and never to
the research brief the draft was produced from. -/
theorem draft_success_creates_one_item :
    (∀ (store : Store) (draftId draftTitle researchContent : String)
        (blogPostId : Option String) (env : DraftwriterCommand.Env) (it : Item),
        getItem store draftId = some it → env.allOk →
        env.newDraftId ≠ draftId →
        (∀ pid, blogPostId = some pid → pid ≠ draftId ∧ env.newDraftId ≠ pid) →
        ∃ c, env.claude = .ok c ∧
          (DraftwriterCommand.processDraft store draftId draftTitle researchContent
              blogPostId false env).2.filter Ev.isCreate
            = [Ev.create env.newDraftId
                { title := draftTitle, status := "Ready for Review", relation := blogPostId }] ∧
          getItem (DraftwriterCommand.processDraft store draftId draftTitle researchContent
              blogPostId false env).1 env.newDraftId
            = some { title := draftTitle, status := "Ready for Review",
                     relation := blogPostId, body := c })
  ∧ (∀ (store : Store) (researchFilePath researchFileTitle researchContent : String)
        (originalBlogFilePath : Option String) (draftPath : String)
        (env : GitDraftwriterCommand.Env) (it : Item),
        getItem store researchFilePath = some it → env.allOk →
        getItem store draftPath = none →
        draftPath ≠ researchFilePath →
        (∀ bp, originalBlogFilePath = some bp →
          draftPath ≠ bp ∧ ∃ itb, getItem store bp = some itb) →
        ∃ c, env.claude = .ok c ∧
          (GitDraftwriterCommand.processDraft store researchFilePath researchFileTitle
              researchContent originalBlogFilePath draftPath false env).2.filter Ev.isCreate
            = [Ev.create draftPath
                { title := "Draft: " ++ researchFileTitle, status := "Ready for Review",
                  body := c, briefRef := some researchFilePath,
                  relation := originalBlogFilePath }] ∧
          getItem (GitDraftwriterCommand.processDraft store researchFilePath researchFileTitle
              researchContent originalBlogFilePath draftPath false env).1 draftPath
            = some { title := "Draft: " ++ researchFileTitle, status := "Ready for Review",
                     body := c, briefRef := some researchFilePath,
                     relation := originalBlogFilePath }) := by
  constructor
  · rintro store draftId draftTitle researchContent blogPostId
      ⟨u1, uc, cl, cp, nd, ab, up, uc2, rs, re⟩ it h
      ⟨h1, h2, ⟨c, hc⟩, h4, h5, h6, h7⟩ hnd hbp
    simp only at h1 h2 hc h4 h5 h6 h7 hnd
    subst h1 h2 hc h4 h5 h6 h7
    refine ⟨c, rfl, ?_, ?_⟩ <;>
      rcases blogPostId with _ | pid
    · simp [DraftwriterCommand.processDraft, Ev.isCreate]
    · obtain ⟨hp1, hp2⟩ := hbp pid rfl
      simp [DraftwriterCommand.processDraft, Ev.isCreate]
    · simp [DraftwriterCommand.processDraft, getItem_updateItem_self,
        getItem_updateItem_ne, getItem_createItem_self, hnd, h]
    · obtain ⟨hp1, hp2⟩ := hbp pid rfl
      simp [DraftwriterCommand.processDraft, getItem_updateItem_self,
        getItem_updateItem_ne, getItem_createItem_self, hnd, hp2, h]
  · rintro store researchFilePath researchFileTitle researchContent originalBlogFilePath
      draftPath ⟨u1, cl, cf, uc, ub, ue, bs, ube⟩ it h
      ⟨h1, ⟨c, hc⟩, h3, h4, h5⟩ hfresh hdp hbp
    simp only at h1 hc h3 h4 h5
    subst h1 hc h3 h4 h5
    have hfd : researchFilePath ≠ draftPath := Ne.symm hdp
    refine ⟨c, rfl, ?_, ?_⟩ <;>
      rcases originalBlogFilePath with _ | bp
    · simp [GitDraftwriterCommand.processDraft, GitHubFileClient.updateYamlFrontMatter,
        GitHubFileClient.createFile, getItem_updateItem_self, getItem_updateItem_ne,
        getItem_createItem_self, getItem_createItem_ne, hdp, hfd, hfresh, h, Ev.isCreate]
    · obtain ⟨hb, itb, hitb⟩ := hbp bp rfl
      by_cases hbf : bp = researchFilePath
      · subst hbf
        simp [GitDraftwriterCommand.processDraft, GitHubFileClient.updateYamlFrontMatter,
          GitHubFileClient.createFile, getItem_updateItem_self, getItem_updateItem_ne,
          getItem_createItem_self, getItem_createItem_ne, hdp, hfd, hfresh, h, Ev.isCreate]
      · simp [GitDraftwriterCommand.processDraft, GitHubFileClient.updateYamlFrontMatter,
          GitHubFileClient.createFile, getItem_updateItem_self, getItem_updateItem_ne,
          getItem_createItem_self, getItem_createItem_ne, hdp, hfd, hb, Ne.symm hb, hbf,
          hfresh, h, hitb, Ev.isCreate]
    · simp [GitDraftwriterCommand.processDraft, GitHubFileClient.updateYamlFrontMatter,
        GitHubFileClient.createFile, getItem_updateItem_self, getItem_updateItem_ne,
        getItem_createItem_self, getItem_createItem_ne, hdp, hfd, hfresh, h]
    · obtain ⟨hb, itb, hitb⟩ := hbp bp rfl
      by_cases hbf : bp = researchFilePath
      · subst hbf
        simp [GitDraftwriterCommand.processDraft, GitHubFileClient.updateYamlFrontMatter,
          GitHubFileClient.createFile, getItem_updateItem_self, getItem_updateItem_ne,
          getItem_createItem_self, getItem_createItem_ne, hdp, hfd, hfresh, h]
      · simp [GitDraftwriterCommand.processDraft, GitHubFileClient.updateYamlFrontMatter,
          GitHubFileClient.createFile, getItem_updateItem_self, getItem_updateItem_ne,
          getItem_createItem_self, getItem_createItem_ne, hdp, hfd, hb, Ne.symm hb, hbf,
          hfresh, h, hitb]

/-- C5 witness: the concrete successful Notion draft run creates exactly one
item, with status "Ready for Review", body "draft body" and relation
pointing at the companion blog post. -/
theorem draft_success_creates_one_item_witness :
    ∃ c, demoDraftEnv.claude = .ok c ∧
      (DraftwriterCommand.processDraft demoDraftStore "brief1" "Foo" "research"
          (some "post1") false demoDraftEnv).2.filter Ev.isCreate
        = [Ev.create "d1"
            { title := "Foo", status := "Ready for Review", relation := some "post1" }] ∧
      getItem (DraftwriterCommand.processDraft demoDraftStore "brief1" "Foo" "research"
          (some "post1") false demoDraftEnv).1 "d1"
        = some { title := "Foo", status := "Ready for Review",
                 relation := some "post1", body := c } :=
  draft_success_creates_one_item.1 demoDraftStore "brief1" "Foo" "research"
    (some "post1") demoDraftEnv demoBrief (by decide)
    ⟨rfl, rfl, ⟨"draft body", rfl⟩, rfl, rfl, rfl, rfl⟩ (by decide)
    (fun pid hp => by
      cases hp
      exact ⟨by decide, by decide⟩)

/-- C7: in the Notion CLI research variant, a dry-run on an eligible item
still performs a persisted store write — it sets the item's status to
"Research In Progress" before the dry-run check — contradicting both the
spec's zero-writes requirement and the command's own "no API calls will be
made" log line; the git research variant checks the flag first and performs
zero writes and no provider call. -/
theorem dry_run_performs_status_write :
    ((ResearchCommand.processTopic demoStore "t1" "Foo" true demoResearchEnv).2
        = [Ev.statusWrite "t1" "Research In Progress"] ∧
      (Ev.statusWrite "t1" "Research In Progress").isWrite = true ∧
      getItem (ResearchCommand.processTopic demoStore "t1" "Foo" true demoResearchEnv).1 "t1"
        = some { demoItem with status := "Research In Progress" })
  ∧ (∀ (store : Store) (topicFilePath topicTitle : String) (fm : Item)
        (env : GitResearchCommand.Env),
        GitResearchCommand.processTopic store topicFilePath topicTitle fm true env
          = (store, [])) := by
  refine ⟨⟨by decide, by decide, by decide⟩, ?_⟩
  intro store topicFilePath topicTitle fm env
  simp [GitResearchCommand.processTopic]

end Editorial
